import Mathlib

/-!
# Verification of the `jupyterhubutils` scanner / prepuller core

Shallow embedding, in Lean 4, of the algorithmic core of the
`lsst-sqre/jupyterutils` repository:

* `jupyterhubutils/scanrepo/scanrepo.py` (class `ScanRepo`): registry scan,
  manifest cache reconciliation, tag classification / description, bucket
  reduction, and the image-name sorting helpers;
* `jupyterhubutils/prepuller/prepuller.py` (class `Prepuller`): image-list
  maintenance, pod naming, deletion-list computation, the timeout handler,
  and the pod create/delete wrappers.

Python dictionaries are modelled as association lists in insertion order,
timestamps as natural numbers (the `datetime` conversion is monotone and only
order is ever used), `None` as `Option.none`, and raised exceptions as
`Except.error`.  HTTP and Kubernetes clients are passed in as explicit
function-valued oracles.
-/

deriving instance DecidableEq for Except

namespace JHU

/-- Python's `dict`-keyed de-duplication keeping the first occurrence of
each element, with the already-seen keys made explicit. -/
def pyDedupAux (seen : List String) : List String → List String
  | [] => []
  | a :: l => if a ∈ seen then pyDedupAux seen l else a :: pyDedupAux (a :: seen) l

/-- Python's `list(set(...))`-compatible de-duplication keeping the first
occurrence, as performed by inserting into a `dict`/`set` keyed by the
element. -/
def pyDedup (l : List String) : List String :=
  pyDedupAux [] l

/-- Python's `lst = list(set(lst)); lst.sort()`: de-duplicate, then sort in
ascending lexicographic order.  The arbitrary iteration order of the
intermediate `set` is irrelevant because the result is sorted. -/
def pySortedSet (l : List String) : List String :=
  (pyDedup l).insertionSort (· ≤ ·)

/-! ## Prepuller image-list maintenance (`Prepuller.__init__`,
`update_images_from_repo`) -/

/-- Body of the normalization loop in `Prepuller.__init__`: qualify an image
name with `:latest` when it has no colon and `library/` when it has no
slash. -/
def normalizeImage (image : String) : String :=
  let image := if image.toList.count ':' = 0 then image ++ ":latest" else image
  if image.toList.count '/' = 0 then "library/" ++ image else image

/-- `Prepuller.__init__` image-list setup: starting from the empty class
attribute `images`, the `args.list` loop rebinds its variable and the
`append` sits after the loop, so only the final element of `args.list` is
appended (normalized); the list is then deduplicated via `set` and
sorted. -/
def initImages (argsList : List String) : List String :=
  let withLast : List String :=
    match argsList.getLast? with
    | none => []
    | some img => [normalizeImage img]
  pySortedSet withLast

/-- The scan-derived image references built by `update_images_from_repo`
from `repo.data`: sections `daily`, `weekly`, `release` in that order,
each tag prefixed with `exhost + owner + "/" + name + ":"`. -/
def scanImages (exhost owner name : String) (repoData : String → List String) :
    List String :=
  (["daily", "weekly", "release"].flatMap repoData).map
    (fun tag => exhost ++ owner ++ "/" ++ name ++ ":" ++ tag)

/-- `Prepuller.update_images_from_repo` list update: copy the current image
list, extend it with the scan-derived references, deduplicate through a
`set`, and sort. -/
def updateImagesFromRepo (current : List String) (scanImgs : List String) :
    List String :=
  pySortedSet (current ++ scanImgs)

/-! ## Character-level string primitives

Python string operations are modelled over `String.data : List Char` so
that every definition evaluates by kernel reduction.  Each primitive
mirrors the corresponding Python `str` method on the inputs the scanner
feeds it. -/

/-- Python `a < b` on strings: lexicographic comparison by code point,
a strict prefix sorting first. -/
def charListLt : List Char → List Char → Bool
  | [], [] => false
  | [], _ :: _ => true
  | _ :: _, [] => false
  | a :: as, b :: bs =>
    if a.toNat < b.toNat then true
    else if b.toNat < a.toNat then false
    else charListLt as bs

/-- Python `a <= b` on strings. -/
def strLe (a b : String) : Bool :=
  !(charListLt b.data a.data)

/-- Python `a < b` on strings. -/
def strLt (a b : String) : Bool :=
  charListLt a.data b.data

/-- Python `s.startswith(p)`. -/
def pyStartsWith (s p : String) : Bool :=
  p.data.isPrefixOf s.data

/-- Python `s.find(c) != -1` for a single character. -/
def pyContains (s : String) (c : Char) : Bool :=
  s.data.any (fun x => x = c)

/-- Split a character list on a separator character. -/
def splitOnChar (c : Char) : List Char → List (List Char)
  | [] => [[]]
  | x :: xs =>
    let rest := splitOnChar c xs
    if x = c then [] :: rest
    else
      match rest with
      | [] => [[x]]
      | r :: rs => (x :: r) :: rs

/-- Python `s.split(c)` for a one-character separator: always returns at
least one piece, with empty pieces around adjacent separators. -/
def pySplit (s : String) (c : Char) : List String :=
  (splitOnChar c s.data).map String.mk

/-- Python `sep.join(parts)`. -/
def pyJoin (sep : String) : List String → String
  | [] => ""
  | [x] => x
  | x :: xs => x ++ sep ++ pyJoin sep xs

/-- The numeric value of a nonempty all-digit character list. -/
def digitsVal (l : List Char) : Option Nat :=
  if l.isEmpty || !(l.all Char.isDigit) then none
  else some (l.foldl (fun acc c => acc * 10 + (c.toNat - '0'.toNat)) 0)

/-- Python `int(s)` on a tag component: an optional sign followed by
digits; `none` models a raised `ValueError`.  (Python also accepts
surrounding whitespace and underscore separators, which cannot occur in
components obtained by splitting a tag on underscores.) -/
def pyInt? (s : String) : Option Int :=
  match s.data with
  | '-' :: rest => (digitsVal rest).map (fun n => -(n : Int))
  | '+' :: rest => (digitsVal rest).map (fun n => (n : Int))
  | l => (digitsVal l).map (fun n => (n : Int))

/-! ## ScanRepo: tag grammar, classification, descriptions -/

/-- Python `s[a:b]` character slicing (never raises). -/
def pySub (s : String) (a b : Nat) : String :=
  String.mk ((s.toList.drop a).take (b - a))

/-- Python `s[a:]` character slicing (never raises). -/
def pyDrop (s : String) (a : Nat) : String :=
  String.mk (s.toList.drop a)

/-- `re.search(r'\d+$', s)` followed by `int(...)`: the value of the trailing
run of digits of `s`, if there is one. -/
def trailingDigits (s : String) : Option Nat :=
  digitsVal (s.toList.reverse.takeWhile Char.isDigit).reverse

/-- `tag[0].upper() + tag[1:]` (call sites guarantee a nonempty tag). -/
def pyCapitalize (s : String) : String :=
  match s.toList with
  | [] => ""
  | c :: rest => String.mk (c.toUpper :: rest)

/-- The alias check `k.startswith("recommended") or k.startswith("latest")`
used by `resolve_tag` and `_describe_tag`. -/
def isAliasTag (k : String) : Bool :=
  pyStartsWith k "recommended" || pyStartsWith k "latest"

/-- One `_name_to_manifest` entry: `{"updated": ..., "hash": ...}` (the
`layers` slot is always `None` and never read).  Timestamps are modelled as
naturals, `_convert_time` being monotone. -/
structure MEntry where
  updated : Nat
  hash : Option String
deriving DecidableEq, Repr

/-- The `_name_to_manifest` dict: an association list in insertion order
with unique keys. -/
abbrev NameMap := List (String × MEntry)

/-- `ScanRepo.resolve_tag`: look the tag up in `_name_to_manifest`; without
an entry or a hash return `None`; otherwise return the first key, in
insertion order, that is not `recommended*`/`latest*` and has the same
hash (falling off the loop returns `None`). -/
def resolveTag (nm : NameMap) (tag : String) : Option String :=
  match nm.lookup tag with
  | none => none
  | some e =>
    match e.hash with
    | none => none
    | some h =>
      (nm.find? (fun p => !isAliasTag p.1 && p.2.hash == some h)).map Prod.fst

/-- `ScanRepo._describe_tag`, with recursion depth made explicit as fuel
(the only recursive call goes through `resolve_tag`, which never returns an
alias tag, so depth 2 suffices; see `describeTag`).  `Except.error ()`
models a raised `IndexError`. -/
def describeTagF (nm : NameMap) : Nat → String → Except Unit String
  | 0, _ => Except.error ()
  | fuel + 1, tag =>
    if pyContains tag '_' then
      -- new-style branch: components = tag.split('_')
      let cs0 := pySplit tag '_'
      let btype0 := cs0.headI
      -- the r17_0_1 case: split trailing digits off the type component
      let cs := match trailingDigits btype0 with
        | some mj => btype0 :: toString mj :: cs0.tail
        | none => cs0
      let btype := match trailingDigits btype0 with
        | some _ => String.mk [btype0.toList.headI]
        | none => btype0
      if isAliasTag tag then
        let base := pyCapitalize tag
        match resolveTag nm tag with
        | none => Except.ok base
        | some restag =>
          (describeTagF nm fuel restag).map (fun d => base ++ " (" ++ d ++ ")")
      else if btype = "r" then
        match cs.get? 1, cs.get? 2 with
        | some rmaj, some rmin =>
          let ld := "Release " ++ rmaj ++ "." ++ rmin
          let ld := match cs.get? 3 with
            | some rpatch => if rpatch = "" then ld else ld ++ "." ++ rpatch
            | none => ld
          let ld :=
            if cs.length > 4 then
              let rrest := pyJoin "_" (cs.drop 4)
              if rrest = "" then ld else ld ++ "-" ++ rrest
            else ld
          Except.ok ld
        | _, _ => Except.error ()
      else if btype = "w" then
        match cs.get? 1, cs.get? 2 with
        | some year, some week => Except.ok ("Weekly " ++ year ++ "_" ++ week)
        | _, _ => Except.error ()
      else if btype = "d" then
        match cs.get? 1, cs.get? 2, cs.get? 3 with
        | some year, some month, some day =>
          Except.ok ("Daily " ++ year ++ "_" ++ month ++ "_" ++ day)
        | _, _, _ => Except.error ()
      else if btype = "exp" then
        Except.ok ("Experimental " ++ pyJoin "_" (cs.tail))
      else
        Except.ok tag
    else
      if isAliasTag tag then
        let base := pyCapitalize tag
        match resolveTag nm tag with
        | none => Except.ok base
        | some restag =>
          (describeTagF nm fuel restag).map (fun d => base ++ " (" ++ d ++ ")")
      else
        match tag.toList with
        | [] => Except.error ()  -- tag[0] raises IndexError on ""
        | c :: _ =>
          if c = 'r' then
            Except.ok ("Release " ++ pySub tag 1 3 ++ "." ++ pyDrop tag 3)
          else if c = 'w' then
            Except.ok ("Weekly " ++ pySub tag 1 5 ++ "_" ++ pyDrop tag 5)
          else if c = 'd' then
            Except.ok ("Daily " ++ pySub tag 1 5 ++ "_" ++ pySub tag 5 7 ++ "_"
              ++ pyDrop tag 7)
          else if c = 'e' then
            Except.ok ("Experimental " ++ pyDrop tag 1)
          else
            Except.ok tag

/-- `ScanRepo._describe_tag` proper: depth 2 covers the one indirect
recursion (alias tag → resolved non-alias tag, which does not recurse). -/
def describeTag (nm : NameMap) (tag : String) : Except Unit String :=
  describeTagF nm 2 tag

/-- The classification buckets of `_reduce_results` (`*_candidates`). -/
inductive Bucket
  | release
  | weekly
  | daily
  | experimental
  | latestB
  | recommendedB
  | other
deriving DecidableEq, Repr

/-- The `if/elif` prefix chain of `_reduce_results` assigning each reduced
tag name to one candidate list. -/
def classify (res : String) : Bucket :=
  if pyStartsWith res "r" && !pyStartsWith res "recommended" then Bucket.release
  else if pyStartsWith res "w" then Bucket.weekly
  else if pyStartsWith res "d" then Bucket.daily
  else if pyStartsWith res "exp" then Bucket.experimental
  else if pyStartsWith res "latest" then Bucket.latestB
  else if pyStartsWith res "recommended" then Bucket.recommendedB
  else Bucket.other

/-! ## Semantic-version keys and the image sorts

The Python code builds a version string with `semver.format_version` and
compares with `semver.compare`.  We keep the five fields that
`format_version` received; `semverCompare` models the `semver` package's
precedence rules (numeric major/minor/patch, then prerelease identifiers
dot-split with numeric-aware comparison, build ignored), which is what
`compare` computes after parsing the formatted string back. -/

structure SemVer where
  major : Int
  minor : Int
  patch : Int
  prerelease : Option String
  build : Option String
deriving DecidableEq, Repr

/-- Three-way comparison on `Int`, with the semver convention -1/0/1. -/
def cmpInt (x y : Int) : Int :=
  if x < y then -1 else if x = y then 0 else 1

/-- A semver prerelease identifier consisting only of digits. -/
def isNumericIdent (s : String) : Bool :=
  !s.data.isEmpty && s.data.all Char.isDigit

/-- Compare two prerelease identifiers: numeric pairs numerically, numeric
before alphanumeric, otherwise lexicographically. -/
def cmpIdent (x y : String) : Int :=
  if isNumericIdent x && isNumericIdent y then
    cmpInt ((digitsVal x.data).getD 0) ((digitsVal y.data).getD 0)
  else if isNumericIdent x then -1
  else if isNumericIdent y then 1
  else if strLt x y then -1 else if x = y then 0 else 1

/-- Compare dot-split prerelease identifier lists; a shorter list that is a
prefix of the longer one sorts first. -/
def cmpIdentList : List String → List String → Int
  | [], [] => 0
  | [], _ :: _ => -1
  | _ :: _, [] => 1
  | x :: xs, y :: ys =>
    let c := cmpIdent x y
    if c = 0 then cmpIdentList xs ys else c

/-- `semver.format_version(major, minor, patch, prerelease, build)`: plain
string formatting with no validation (non-conforming fields — negative
numbers, empty or leading-zero prerelease identifiers — pass through and
only fail later, when `semver.compare` re-parses the string). -/
def formatVersion (k : SemVer) : String :=
  toString k.major ++ "." ++ toString k.minor ++ "." ++ toString k.patch
    ++ (match k.prerelease with
        | some p => "-" ++ p
        | none => "")
    ++ (match k.build with
        | some b => "+" ++ b
        | none => "")

/-- The `0|[1-9]\d*` numeric field of the semver grammar: nonempty digits
with no leading zero. -/
def semverNumOk (l : List Char) : Bool :=
  !l.isEmpty && l.all Char.isDigit && (l.length == 1 || l.headI != '0')

/-- One prerelease identifier: `0|[1-9]\d*|\d*[a-zA-Z-][0-9a-zA-Z-]*` —
nonempty, alphanumeric-or-dash, and if purely numeric then without a
leading zero. -/
def semverIdentOk (l : List Char) : Bool :=
  !l.isEmpty && l.all (fun c => c.isAlphanum || c == '-') &&
    (!(l.all Char.isDigit) || semverNumOk l)

/-- A prerelease section: dot-separated identifiers, each conforming. -/
def semverPreOk (l : List Char) : Bool :=
  (splitOnChar '.' l).all (fun seg => semverIdentOk seg)

/-- A build section: `[0-9a-zA-Z.-]+`. -/
def semverBuildOk (l : List Char) : Bool :=
  !l.isEmpty && l.all (fun c => c.isAlphanum || c == '.' || c == '-')

/-- The optional `-prerelease` / `+build` tail of a semver string: the
prerelease extends to the first `+` (its identifiers cannot contain `+`),
the remainder must be a conforming build. -/
def semverTail (l : List Char) : Option (Option String) :=
  match l with
  | [] => some none
  | '+' :: b => if semverBuildOk b then some none else none
  | '-' :: rest =>
    let pre := rest.takeWhile (fun c => c != '+')
    let after := rest.dropWhile (fun c => c != '+')
    if !semverPreOk pre then none
    else
      match after with
      | [] => some (some (String.mk pre))
      | _ :: b => if semverBuildOk b then some (some (String.mk pre)) else none
  | _ => none

/-- The anchored parse performed inside `semver.parse`:
`^(0|[1-9]\d*)\.(0|[1-9]\d*)\.(0|[1-9]\d*)(-prerelease)?(+build)?$`,
returning major, minor, patch and the prerelease (build is validated but
ignored by `compare`).  `none` models the raised `ValueError`. -/
def parseVersionCore (l : List Char) : Option (Nat × Nat × Nat × Option String) :=
  let d1 := l.takeWhile Char.isDigit
  let r1 := l.dropWhile Char.isDigit
  if !semverNumOk d1 then none else
  match r1 with
  | '.' :: r2 =>
    let d2 := r2.takeWhile Char.isDigit
    let r3 := r2.dropWhile Char.isDigit
    if !semverNumOk d2 then none else
    match r3 with
    | '.' :: r4 =>
      let d3 := r4.takeWhile Char.isDigit
      let r5 := r4.dropWhile Char.isDigit
      if !semverNumOk d3 then none else
      (semverTail r5).map (fun pre =>
        ((digitsVal d1).getD 0, (digitsVal d2).getD 0, (digitsVal d3).getD 0, pre))
    | _ => none
  | _ => none

/-- `semver.parse` on a version string. -/
def parseSemverStr (s : String) : Option (Nat × Nat × Nat × Option String) :=
  parseVersionCore s.data

/-- Semver precedence on two successfully parsed versions: major, minor,
patch, then prerelease (absence of a prerelease sorts last); build
ignored. -/
def semverCompareParts :
    Nat × Nat × Nat × Option String → Nat × Nat × Nat × Option String → Int
  | (ma, mia, pa, pra), (mb, mib, pb, prb) =>
    let c := cmpInt ma mb
    if c ≠ 0 then c else
      let c := cmpInt mia mib
      if c ≠ 0 then c else
        let c := cmpInt pa pb
        if c ≠ 0 then c else
          match pra, prb with
          | none, none => 0
          | none, some _ => 1
          | some _, none => -1
          | some p, some q => cmpIdentList (pySplit p '.') (pySplit q '.')

/-- The comparison `semver.compare` computes once both strings have
parsed.  Consulted only when both arguments conform (otherwise the sort
has already raised, see `semverSortBlocked`): the fallback branch is never
reached from `sortImagesCore`. -/
def semverCompareD (a b : String) : Int :=
  match parseSemverStr a, parseSemverStr b with
  | some pa, some pb => semverCompareParts pa pb
  | _, _ => 0

/-- Whether `seml.sort(key=functools.cmp_to_key(semver.compare))` raises:
`semver.compare` re-parses both of its arguments and raises `ValueError`
when either does not conform.  A sort of two or more keys invokes the
comparator with every key at least once (timsort's run detection alone
compares every adjacent pair), so any non-conforming key aborts it; a list
of fewer than two keys is returned without any comparator call. -/
def semverSortBlocked (seml : List String) : Bool :=
  decide (2 ≤ seml.length) && seml.any (fun s => (parseSemverStr s).isNone)

/-- One reduced tag record, restricted to the fields the claims consult
(`name`, `description`). -/
structure Img where
  name : String
  description : String
deriving DecidableEq, Repr

/-- The per-image semver-key construction of `_sort_images_by_name`:
split on underscores, split trailing digits off the type component and
insert them as the major number, drop a leading `exp`, then read
major/minor/patch with the non-integer-patch-becomes-prerelease rule.
`Except.error ()` models `int()` raising `ValueError`. -/
def parseNewStyleKey (name : String) : Except Unit SemVer := do
  let cs0 := pySplit name '_'
  let cs1 := match trailingDigits cs0.headI with
    | some mj => cs0.headI :: toString mj :: cs0.tail
    | none => cs0
  let cs := if cs1.headI = "exp" then cs1.tail else cs1
  let major : Int ←
    match cs.get? 1 with
    | none => pure 0
    | some s =>
      match pyInt? s with
      | some v => pure v
      | none => Except.error ()
  let minor : Int ←
    match cs.get? 2 with
    | none => pure 0
    | some s =>
      match pyInt? s with
      | some v => pure v
      | none => Except.error ()
  let pp : Int × Option String :=
    match cs.get? 3 with
    | none => (0, none)
    | some s =>
      match pyInt? s with
      | some v => (v, none)
      | none => (0, some s)
  let pre : Option String :=
    match cs.get? 4 with
    | some s => some s
    | none => pp.2
  let build : Option String :=
    if cs.length > 5 then some (pyJoin "_" (cs.drop 5)) else none
  pure (SemVer.mk major minor pp.1 pre build)

/-- A new-style tag the sort pass handles without a `ValueError`: its
semver-key construction succeeds (`int()` on the components) and the
formatted key re-parses under the semver grammar (`semver.compare`). -/
def semverKeyOk (t : String) : Bool :=
  match parseNewStyleKey t with
  | Except.error _ => false
  | Except.ok k => (parseSemverStr (formatVersion k)).isSome

/-- The partition test of `_sort_images_by_name`: a tag is "new style"
when it contains an underscore and is not a `latest_*` tag (the code's
`name.find("_") == -1` / `name.startswith("latest_")` chain, Boolean
simplified: `latest_*` implies containing an underscore). -/
def newStyleName (t : String) : Bool :=
  pyContains t '_' && !(pyStartsWith t "latest_")

/-- The merged list `_sort_images_by_name` computes internally: new-style
entries (underscore-delimited, except `latest_*`) sorted by descending
semver precedence, followed by old-style entries sorted by descending
name.  This is the value of `sorted_newstyle` after the final
`sorted_newstyle.extend(oldstyle)`. -/
def sortImagesCore (clist : List Img) : Except Unit (List Img) := do
  let oldstyle := clist.filter (fun c => !(newStyleName c.name))
  let newstyle := clist.filter (fun c => newStyleName c.name)
  -- oldstyle.sort(key=lambda x: x["name"], reverse=True): stable descending
  let oldS := oldstyle.insertionSort (fun a b => strLe b.name a.name = true)
  -- cimg["semver"] = semver.format_version(...): the stored version string
  let keyed ← newstyle.mapM (fun c =>
    (parseNewStyleKey c.name).map (fun k => (c, formatVersion k)))
  let seml := keyed.map Prod.snd
  -- seml.sort(key=functools.cmp_to_key(semver.compare), reverse=True):
  -- raises ValueError as soon as a comparison re-parses a non-conforming
  -- key (see semverSortBlocked); otherwise a stable descending sort
  if semverSortBlocked seml then Except.error ()
  else
    let semlS := seml.insertionSort (fun a b => 0 ≤ semverCompareD a b)
    -- rebuild sorted_newstyle: first image whose stored version string
    -- matches (`ni["semver"] == skey`), then break
    let sortedNew := semlS.foldl (fun acc skey =>
      match keyed.find? (fun p => p.2 == skey) with
      | some p => acc ++ [p.1]
      | none => acc) []
    pure (sortedNew ++ oldS)

/-- `ScanRepo._sort_images_by_name`: the Python function ends with
`return sorted_newstyle.extend(oldstyle)`, and `list.extend` returns
`None`, so the merged list just computed is discarded and the caller
receives `None` (unless a raised `ValueError` propagates first). -/
def sortImagesByName (clist : List Img) : Except Unit (Option (List Img)) :=
  (sortImagesCore clist).map (fun _ => none)

/-- `ScanRepo._sort_releases_by_name`: decorate 4-character names with
`"zzz"` (recording the originals in `nm`), sort by descending name, then
undecorate with `nm[xtag]` — which raises `KeyError` for every name that
was not decorated, i.e. whenever any candidate's name is not exactly 4
characters long. -/
def sortReleasesByName (rc : List Img) : Except Unit (List Img) := do
  let nmPairs := (rc.filter (fun c => c.name.data.length = 4)).map
    (fun c => (c.name ++ "zzz", c.name))
  let dec := rc.map (fun c =>
    if c.name.data.length = 4 then Img.mk (c.name ++ "zzz") c.description else c)
  let decS := dec.insertionSort (fun a b => strLe b.name a.name = true)
  decS.mapM (fun c =>
    match nmPairs.lookup c.name with
    | some orig => pure (Img.mk orig c.description)
    | none => Except.error ())

/-! ## `_reduce_results` and `extract_image_info` -/

/-- The seven candidate lists of `_reduce_results`.  All but `oCand` hold
reduced records; `o_candidates.append(res)` appends the raw *name string*
(not the record), which is what the code does. -/
structure Buckets where
  cCand : List Img
  rCand : List Img
  wCand : List Img
  dCand : List Img
  eCand : List Img
  lCand : List Img
  oCand : List String
deriving DecidableEq, Repr

def emptyBuckets : Buckets := Buckets.mk [] [] [] [] [] [] []

/-- Append one reduced record to the candidate list chosen by the
`if/elif` prefix chain. -/
def addToBucket (bs : Buckets) (img : Img) : Buckets :=
  match classify img.name with
  | Bucket.release =>
    Buckets.mk bs.cCand (bs.rCand ++ [img]) bs.wCand bs.dCand bs.eCand bs.lCand bs.oCand
  | Bucket.weekly =>
    Buckets.mk bs.cCand bs.rCand (bs.wCand ++ [img]) bs.dCand bs.eCand bs.lCand bs.oCand
  | Bucket.daily =>
    Buckets.mk bs.cCand bs.rCand bs.wCand (bs.dCand ++ [img]) bs.eCand bs.lCand bs.oCand
  | Bucket.experimental =>
    Buckets.mk bs.cCand bs.rCand bs.wCand bs.dCand (bs.eCand ++ [img]) bs.lCand bs.oCand
  | Bucket.latestB =>
    Buckets.mk bs.cCand bs.rCand bs.wCand bs.dCand bs.eCand (bs.lCand ++ [img]) bs.oCand
  | Bucket.recommendedB =>
    Buckets.mk (bs.cCand ++ [img]) bs.rCand bs.wCand bs.dCand bs.eCand bs.lCand bs.oCand
  | Bucket.other =>
    Buckets.mk bs.cCand bs.rCand bs.wCand bs.dCand bs.eCand bs.lCand (bs.oCand ++ [img.name])

def partitionBuckets (imgs : List Img) : Buckets :=
  imgs.foldl addToBucket emptyBuckets

/-- The name strings held by each candidate list (`o_candidates` already
holds names). -/
def bucketNames (bs : Buckets) : Bucket → List String
  | Bucket.release => bs.rCand.map Img.name
  | Bucket.weekly => bs.wCand.map Img.name
  | Bucket.daily => bs.dCand.map Img.name
  | Bucket.experimental => bs.eCand.map Img.name
  | Bucket.latestB => bs.lCand.map Img.name
  | Bucket.recommendedB => bs.cCand.map Img.name
  | Bucket.other => bs.oCand

/-- Whether an `Except` models a non-raising Python call. -/
def exOk {ε α : Type} (e : Except ε α) : Bool :=
  match e with
  | Except.ok _ => true
  | Except.error _ => false

/-- The value of a successful `_describe_tag` call (`""` when it raised;
total companion of `describeTag` used to state its success cases). -/
def descD (nm : NameMap) (t : String) : String :=
  match describeTag nm t with
  | Except.ok d => d
  | Except.error _ => ""

/-- The value of a successful semver-key construction (a zero key when it
raised; total companion of `parseNewStyleKey`). -/
def parseD (t : String) : SemVer :=
  match parseNewStyleKey t with
  | Except.ok v => v
  | Except.error _ => SemVer.mk 0 0 0 none none

/-- The reduced record built for a tag (name plus description). -/
def mkImg (nm : NameMap) (t : String) : Img :=
  Img.mk t (descD nm t)

/-- Deduplication performed by keying `reduced_results` on the tag name:
first occurrence keeps its position; the overwritten value is identical on
the fields we track because `_describe_tag` is deterministic. -/
def pyDedupImgsAux (seen : List String) : List Img → List Img
  | [] => []
  | a :: l =>
    if a.name ∈ seen then pyDedupImgsAux seen l
    else a :: pyDedupImgsAux (a.name :: seen) l

def pyDedupImgs (l : List Img) : List Img :=
  pyDedupImgsAux [] l

/-- The first two loops of `_reduce_results` followed by the
`sort_field == 'name'` sorting pass: build the reduced records (every tag
is described, and a raised `IndexError` propagates), partition them into
the candidate lists, then run `_sort_images_by_name` over every entry of
`imgorder`.  `imgorder = [l_candidates]` extended with `displayorder`
appends the candidate *list objects* — later bucket appends are visible
through it — but `imgorder.extend(o_candidates)` copies the elements of
`o_candidates` while it is still empty (it is filled only by the later
bucket loop), so the sort pass iterates exactly the `latest`,
(`recommended` when enabled), `experimental`, `daily`, `weekly` and
`release` lists and never sees the raw name strings in `o_candidates`:
unclassified tags are silently dropped (no `imap` key selects them).
The assignment `clist = self._sort_images_by_name(clist)` rebinds the
loop variable, so the candidate lists themselves are left in insertion
order, but a `ValueError` raised inside the sort still propagates. -/
def reduceResultsE (recommendedFlag : Bool) (nm : NameMap) (results : List String) :
    Except Unit Buckets := do
  let imgs ← results.mapM (fun t => (describeTag nm t).map (Img.mk t))
  let bs := partitionBuckets (pyDedupImgs imgs)
  let _ ← sortImagesByName bs.lCand
  let _ ← if recommendedFlag then sortImagesByName bs.cCand else pure none
  let _ ← sortImagesByName bs.eCand
  let _ ← sortImagesByName bs.dCand
  let _ ← sortImagesByName bs.wCand
  let _ ← sortImagesByName bs.rCand
  pure bs

/-- The scanner configuration fields consulted by `_reduce_results` and
`extract_image_info`. -/
structure ScanCfg where
  experimentals : Nat
  dailies : Nat
  weeklies : Nat
  releases : Nat
  recommended : Bool
  owner : String
  name : String

/-- The `self.data` dict: keys present only when the configured count is
nonzero (`if ict:`), each value the head of the corresponding candidate
list truncated to the count (`displayorder[idx][:ict]`). -/
structure RData where
  recommendedE : Option (List Img)
  experimentalE : Option (List Img)
  dailyE : Option (List Img)
  weeklyE : Option (List Img)
  releaseE : Option (List Img)
deriving DecidableEq, Repr

def buildData (cfg : ScanCfg) (bs : Buckets) : RData :=
  RData.mk
    (if cfg.recommended then some (bs.cCand.take 1) else none)
    (if cfg.experimentals ≠ 0 then some (bs.eCand.take cfg.experimentals) else none)
    (if cfg.dailies ≠ 0 then some (bs.dCand.take cfg.dailies) else none)
    (if cfg.weeklies ≠ 0 then some (bs.wCand.take cfg.weeklies) else none)
    (if cfg.releases ≠ 0 then some (bs.rCand.take cfg.releases) else none)

/-- `_reduce_results` end to end (for `sort_field == "name"`): candidate
lists, then the truncated `self.data`. -/
def reduceData (cfg : ScanCfg) (nm : NameMap) (results : List String) :
    Except Unit RData :=
  (reduceResultsE cfg.recommended nm results).map (buildData cfg)

/-- `ScanRepo.extract_image_info`: concatenate the buckets present in
`self.data` in the fixed order recommended (if enabled) → experimental →
daily → weekly → release, pair each entry's image reference
`owner/name:tag` with its description (recomputing the description only
when the stored one is falsy). -/
def extractImageInfo (cfg : ScanCfg) (nm : NameMap) (rd : RData) :
    Except Unit (List String × List String) := do
  let cs :=
    (if cfg.recommended then rd.recommendedE.getD [] else [])
      ++ rd.experimentalE.getD [] ++ rd.dailyE.getD []
      ++ rd.weeklyE.getD [] ++ rd.releaseE.getD []
  let ldescs ← cs.mapM (fun c =>
    if c.description = "" then describeTag nm c.name else pure c.description)
  let ls := cs.map (fun c => cfg.owner ++ "/" ++ cfg.name ++ ":" ++ c.name)
  pure (ls, ldescs)

/-- Scan-to-display pipeline at `sort_field == "name"`: reduce, then
extract. -/
def scanDisplay (cfg : ScanCfg) (nm : NameMap) (results : List String) :
    Except Unit (List String × List String) := do
  let rd ← reduceData cfg nm results
  extractImageInfo cfg nm rd

/-! ## `_map_names_to_manifests`: manifest cache reconciliation -/

/-- The trust test of `_map_names_to_manifests` evaluated against a fixed
name map: the registry timestamp is not newer than the cached one and a
cached hash is present
(`tstamp <= namemap[tag]["updated"] and namemap[tag]["hash"]`). -/
def trustedB (nm : NameMap) (p : String × Nat) : Bool :=
  match nm.lookup p.1 with
  | some e => decide (p.2 ≤ e.updated) && e.hash.isSome
  | none => false

/-- The tags `_map_names_to_manifests` must re-check: cached hash missing
(including tags absent from the cache) or cached timestamp older than the
registry's `last_updated`. -/
def staleNames (nm : NameMap) (results : List (String × Nat)) : List String :=
  (results.filter (fun p => !trustedB nm p)).map Prod.fst

/-- The first loop of `_map_names_to_manifests`: walk `self._results_map`
in order; insert a hashless entry for unknown tags; for trusted tags copy
the cached hash into the results map; otherwise append the tag to
`check_names`.  Returns the updated name map, the `results[tag]["hash"]`
assignments in order, and `check_names`. -/
def mnmPhase1 : List (String × Nat) → NameMap →
    NameMap × List (String × Option String) × List String
  | [], nm => (nm, [], [])
  | (tag, ts) :: rest, nm =>
    let e := match nm.lookup tag with
      | some e => e
      | none => MEntry.mk ts none
    let nm' := match nm.lookup tag with
      | some _ => nm
      | none => nm ++ [(tag, MEntry.mk ts none)]
    if ts ≤ e.updated ∧ e.hash.isSome then
      let r := mnmPhase1 rest nm'
      (r.1, (tag, e.hash) :: r.2.1, r.2.2)
    else
      let r := mnmPhase1 rest nm'
      (r.1, r.2.1, tag :: r.2.2)

/-- Result of the manifest-fetch phase. -/
structure MNMOut where
  /-- the `results[tag]["hash"]` assignments, first assignment first -/
  resHash : List (String × Option String)
  /-- `check_names` -/
  checkNames : List String
  /-- whether the `HEAD manifests/recommended` auth probe was issued -/
  probe : Bool
  /-- the tags for which `HEAD manifests/{tag}` was issued -/
  fetched : List String
  /-- the final `_name_to_manifest` -/
  nameMap : NameMap
deriving Repr

/-- `ScanRepo._map_names_to_manifests` over a manifest-digest oracle.
If `check_names` is empty the function returns before any HTTP request.
Otherwise it probes `manifests/recommended`; the per-tag fetch loop sits
inside `if authtok:`, so without a bearer token no per-tag manifest fetch
happens at all.  With a token, each checked tag's digest is fetched and
stored, and — the loop variable leaking out of the `for` — only the *last*
checked tag's `updated` field is refreshed. -/
def mapNamesToManifests (results : List (String × Nat)) (nm : NameMap)
    (authtok : Option String) (digest : String → String) : MNMOut :=
  let r := mnmPhase1 results nm
  let nm1 := r.1
  let rh := r.2.1
  let cn := r.2.2
  if cn.isEmpty then MNMOut.mk rh cn false [] nm1
  else
    match authtok with
    | none => MNMOut.mk rh cn true [] nm1
    | some _ =>
      let rh2 := rh ++ cn.map (fun n => (n, some (digest n)))
      let nm2 := nm1.map (fun p =>
        if p.1 ∈ cn then (p.1, MEntry.mk p.2.updated (some (digest p.1))) else p)
      let lastName := cn.getLastD ""
      let lastTs := (results.lookup lastName).getD 0
      let nm3 := nm2.map (fun p =>
        if p.1 = lastName then (p.1, MEntry.mk lastTs p.2.hash) else p)
      MNMOut.mk rh2 cn true cn nm3

/-! ## `scan()`: the paginated tag-listing loop -/

/-- What one iteration of the `scan()` page loop observes: `_get_url`
raised (no body received), the body failed to decode as JSON, or a page of
results together with whether a `next` cursor is present. -/
inductive FetchOutcome
  | fetchFail (err : String)
  | badJson (raw : String)
  | page (tags : List (String × Nat)) (hasNext : Bool) (raw : String)
deriving DecidableEq

/-- The raised exceptions of `scan()`: the `ValueError`s of the page loop
(with their message) or an exception escaping `_reduce_results`. -/
inductive ScanErr
  | retrieval (msg : String)
  | reduce
deriving DecidableEq, Repr

/-- The `" [ data: %s ]"` suffix: `resp_bytes` still holds the previous
page's body when the current `_get_url` raises. -/
def bodySuffix : Option String → String
  | some b => " [ data: " ++ b ++ " ]"
  | none => ""

/-- The `while True` page loop of `scan()`: accumulate `j["results"]`
page by page, following the `next` cursor; a fetch failure raises
`ValueError` with the URL and (when one was received) the last body; a
decode failure raises `ValueError` with the URL and the offending text.
`fuel` bounds the loop for termination; `none` means the bound was hit. -/
def scanPages (url : String) (o : Nat → FetchOutcome) :
    Nat → Nat → Option String → List (String × Nat) →
    Option (Except String (List (String × Nat)))
  | 0, _, _, _ => none
  | fuel + 1, page, prevBody, acc =>
    match o page with
    | FetchOutcome.fetchFail e =>
      some (Except.error
        ("Failure retrieving " ++ url ++ ": " ++ e ++ bodySuffix prevBody))
    | FetchOutcome.badJson raw =>
      some (Except.error
        ("Could not decode '" ++ url ++ "' -> '" ++ raw ++ "' as JSON"))
    | FetchOutcome.page tags hasNext raw =>
      if hasNext then scanPages url o fuel (page + 1) (some raw) (acc ++ tags)
      else some (Except.ok (acc ++ tags))

/-- The scanner state mutated by `scan()`. -/
structure ScanState where
  data : Option RData
  results : Option (List (String × Nat))
  resultsMap : List (String × Nat)
  resultsHash : List (String × Option String)
  nameToManifest : NameMap
  allTags : List String

/-- `_update_results_map`: upsert each fetched record into the
`_results_map` dict, existing keys keeping their position. -/
def updateResultsMap (rm : List (String × Nat)) (results : List (String × Nat)) :
    List (String × Nat) :=
  results.foldl (fun acc r =>
    if acc.any (fun p => p.1 = r.1) then
      acc.map (fun p => if p.1 = r.1 then r else p)
    else acc ++ [r]) rm

/-- `_sort_tags_by_date`: decorate with `(last_updated, name)`, sort
descending, undecorate. -/
def sortTagsByDate (rm : List (String × Nat)) : List String :=
  (((rm.map (fun p => (p.2, p.1))).insertionSort
      (fun a b => b.1 < a.1 ∨ (b.1 = a.1 ∧ strLe b.2 a.2 = true))).map Prod.snd)

/-- `ScanRepo.scan()` end to end: run the page loop; on a raised
`ValueError` the method aborts with every `self` field untouched (all
assignments sit after the loop).  On success commit `_results`, update the
results map, reconcile manifests, then `_reduce_results` (whose own
exceptions leave `data`/`_all_tags` unchanged but the earlier commits in
place). -/
def scanTotal (cfg : ScanCfg) (url : String) (s : ScanState)
    (o : Nat → FetchOutcome) (authtok : Option String)
    (digest : String → String) (fuel : Nat) :
    Option (ScanState × Option ScanErr) :=
  match scanPages url o fuel 1 none [] with
  | none => none
  | some (Except.error msg) => some (s, some (ScanErr.retrieval msg))
  | some (Except.ok results) =>
    let rm := updateResultsMap s.resultsMap results
    let out := mapNamesToManifests rm s.nameToManifest authtok digest
    let s1 := ScanState.mk s.data (some results) rm out.resHash out.nameMap s.allTags
    match reduceResultsE cfg.recommended out.nameMap (results.map Prod.fst) with
    | Except.error _ => some (s1, some ScanErr.reduce)
    | Except.ok bs =>
      let rd := buildData cfg bs
      some (ScanState.mk (some rd) (some results) rm out.resHash out.nameMap
        (sortTagsByDate rm), none)

/-- Substring containment, for "the error message contains ...". -/
def StrContains (m sub : String) : Prop :=
  ∃ a b, m = a ++ sub ++ b

/-! ## Prepuller: pod naming, deletion lists, timeout handler,
create/delete wrappers -/

/-- `Prepuller._podname_from_image`:
`'-'.join(img.split('/')[-2:])` with `:` and `_` normalized to `-`. -/
def podnameFromImage (img : String) : String :=
  let parts := pySplit img '/'
  let last2 := parts.drop (parts.length - 2)
  String.mk ((pyJoin "-" last2).data.map
    (fun c => if c = ':' then '-' else if c = '_' then '-' else c))

/-- One pod spec, keyed by the fields `_derive_pod_name` consults
(`spec.containers[0].image` and `spec.node_name`). -/
structure PodSpecI where
  image : String
  node : String
deriving DecidableEq, Repr

/-- `Prepuller._derive_pod_name`:
`"pp-" + podname_from_image(image) + "-" + node.split('-')[-1]`. -/
def derivePodName (spec : PodSpecI) : String :=
  "pp-" ++ podnameFromImage spec.image ++ "-" ++ ((pySplit spec.node '-').getLastD "")

/-- Every pod name constructed from the run's pod specs (`specnames` in
`_get_deletion_list`): `pod_specs` is the per-node dict of spec lists. -/
def allSpecNames (podSpecs : List (String × List PodSpecI)) : List String :=
  (podSpecs.flatMap Prod.snd).map derivePodName

/-- `Prepuller._get_deletion_list`: list the namespace's pods and keep
those whose name is among the constructed spec names; when `selective`,
keep only terminal phases (`Succeeded`/`Failed`).  `podlist` is the
cluster's current pod list as `(name, phase)` pairs. -/
def getDeletionList (selective : Bool)
    (podSpecs : List (String × List PodSpecI))
    (podlist : List (String × String)) : List String :=
  let specnames := allSpecNames podSpecs
  podlist.filterMap (fun p =>
    if p.1 ∈ specnames then
      if selective && !(p.2 = "Succeeded" || p.2 = "Failed") then none
      else some p.1
    else none)

/-- `Prepuller._timeout_handler`: `_destroy_pods(selective=False)` — one
delete call per name on the non-selective deletion list — followed
unconditionally by `raise RuntimeError("Timed out")`. -/
def timeoutHandler (podSpecs : List (String × List PodSpecI))
    (podlist : List (String × String)) : List String × Except String Unit :=
  (getDeletionList false podSpecs podlist, Except.error "Timed out")

/-- A Kubernetes API error, identified by its HTTP status. -/
structure K8sApiError where
  status : Nat
deriving DecidableEq, Repr

/-- `Prepuller.start_single_pod`: derive the pod name, build the pod, call
`create_namespaced_pod` (no `try`/`except` anywhere around it) and return
the created pod's metadata name. -/
def startSinglePod (create : String → Except K8sApiError String)
    (spec : PodSpecI) : Except K8sApiError String := do
  let name := derivePodName spec
  let madeName ← create name
  pure madeName

/-- `Prepuller.delete_pod`: call `delete_namespaced_pod` directly (again,
no `try`/`except`). -/
def deletePod (del : String → Except K8sApiError Unit)
    (podname : String) : Except K8sApiError Unit :=
  del podname

/-! ## Claim theorems -/

theorem mem_pyDedupAux {x : String} :
    ∀ {l seen : List String}, x ∈ pyDedupAux seen l ↔ x ∈ l ∧ x ∉ seen := by
  intro l
  induction l with
  | nil => simp [pyDedupAux]
  | cons a l ih =>
    intro seen
    by_cases ha : a ∈ seen
    · simp only [pyDedupAux, if_pos ha, ih, List.mem_cons]
      constructor
      · rintro ⟨h1, h2⟩
        exact ⟨Or.inr h1, h2⟩
      · rintro ⟨(rfl | h1), h2⟩
        · exact absurd ha h2
        · exact ⟨h1, h2⟩
    · simp only [pyDedupAux, if_neg ha, List.mem_cons, ih]
      constructor
      · rintro (rfl | ⟨h1, h2⟩)
        · exact ⟨Or.inl rfl, ha⟩
        · exact ⟨Or.inr h1, fun hs => h2 (Or.inr hs)⟩
      · rintro ⟨(rfl | h1), h2⟩
        · exact Or.inl rfl
        · by_cases hxa : x = a
          · exact Or.inl hxa
          · exact Or.inr ⟨h1, by simp [hxa, h2]⟩

theorem mem_pyDedup {x : String} {l : List String} : x ∈ pyDedup l ↔ x ∈ l := by
  unfold pyDedup
  rw [mem_pyDedupAux]
  simp

theorem nodup_pyDedupAux :
    ∀ (l seen : List String), (pyDedupAux seen l).Nodup := by
  intro l
  induction l with
  | nil => simp [pyDedupAux]
  | cons a l ih =>
    intro seen
    by_cases ha : a ∈ seen
    · simpa [pyDedupAux, if_pos ha] using ih seen
    · simp only [pyDedupAux, if_neg ha, List.nodup_cons]
      refine ⟨fun hmem => ?_, ih _⟩
      rw [mem_pyDedupAux] at hmem
      exact hmem.2 (List.mem_cons_self _ _)

theorem nodup_pyDedup (l : List String) : (pyDedup l).Nodup :=
  nodup_pyDedupAux l []

theorem mem_pySortedSet {x : String} {l : List String} :
    x ∈ pySortedSet l ↔ x ∈ l := by
  unfold pySortedSet
  rw [(List.perm_insertionSort (· ≤ ·) (pyDedup l)).mem_iff]
  exact mem_pyDedup

theorem nodup_pySortedSet (l : List String) : (pySortedSet l).Nodup :=
  ((List.perm_insertionSort (· ≤ ·) (pyDedup l)).nodup_iff).mpr (nodup_pyDedup l)

theorem sorted_pySortedSet (l : List String) :
    (pySortedSet l).Sorted (· ≤ ·) :=
  List.sorted_insertionSort (· ≤ ·) (pyDedup l)

/-- Claim C10: after `Prepuller.__init__` and after every
`update_images_from_repo()` call the images list has no duplicates and is
sorted in ascending lexicographic order, and `update_images_from_repo`
never removes an image that was already present. -/
theorem C10_images_invariant (argsList current : List String)
    (exhost owner name : String) (repoData : String → List String) :
    (initImages argsList).Nodup ∧
    (initImages argsList).Sorted (· ≤ ·) ∧
    (updateImagesFromRepo current (scanImages exhost owner name repoData)).Nodup ∧
    (updateImagesFromRepo current (scanImages exhost owner name repoData)).Sorted
      (· ≤ ·) ∧
    (∀ x ∈ current,
      x ∈ updateImagesFromRepo current (scanImages exhost owner name repoData)) := by
  refine ⟨nodup_pySortedSet _, sorted_pySortedSet _, nodup_pySortedSet _,
    sorted_pySortedSet _, fun x hx => ?_⟩
  unfold updateImagesFromRepo
  rw [mem_pySortedSet]
  exact List.mem_append_left _ hx

/-- Concrete instantiation of `C10_images_invariant`: one pre-existing image
and a scan returning one daily tag. -/
theorem C10_images_invariant_witness :
    (initImages ["ubuntu"]).Nodup ∧
    (initImages ["ubuntu"]).Sorted (· ≤ ·) ∧
    (updateImagesFromRepo ["lsstsqre/sciplat-lab:w_2021_01"]
      (scanImages "" "lsstsqre" "sciplat-lab"
        (fun s => if s = "daily" then ["d_2021_02_01"] else []))).Nodup ∧
    (updateImagesFromRepo ["lsstsqre/sciplat-lab:w_2021_01"]
      (scanImages "" "lsstsqre" "sciplat-lab"
        (fun s => if s = "daily" then ["d_2021_02_01"] else []))).Sorted (· ≤ ·) ∧
    "lsstsqre/sciplat-lab:w_2021_01" ∈
      updateImagesFromRepo ["lsstsqre/sciplat-lab:w_2021_01"]
        (scanImages "" "lsstsqre" "sciplat-lab"
          (fun s => if s = "daily" then ["d_2021_02_01"] else [])) := by
  obtain ⟨h1, h2, h3, h4, h5⟩ := C10_images_invariant ["ubuntu"]
    ["lsstsqre/sciplat-lab:w_2021_01"] "" "lsstsqre" "sciplat-lab"
    (fun s => if s = "daily" then ["d_2021_02_01"] else [])
  exact ⟨h1, h2, h3, h4, h5 _ (by simp)⟩


/-- C1 (code bug): `_sort_images_by_name` is specified to return the
merged, sorted list (new-style entries in descending semver order before
old-style entries in descending lexicographic order), and the merge it
computes internally (`sortImagesCore`) has exactly that shape; but the
function ends in `return sorted_newstyle.extend(oldstyle)`, and
`list.extend` returns `None`, so the caller receives `None` instead of the
merged list. -/
theorem C1_sort_images_by_name_returns_none :
    sortImagesCore
      [Img.mk "r170" "Release 17.0", Img.mk "w_2021_10" "Weekly 2021_10",
       Img.mk "latest_foo" "latest_foo", Img.mk "r17_0_1" "Release 17.0.1"] =
      Except.ok
        [Img.mk "w_2021_10" "Weekly 2021_10", Img.mk "r17_0_1" "Release 17.0.1",
         Img.mk "r170" "Release 17.0", Img.mk "latest_foo" "latest_foo"] ∧
    sortImagesByName
      [Img.mk "r170" "Release 17.0", Img.mk "w_2021_10" "Weekly 2021_10",
       Img.mk "latest_foo" "latest_foo", Img.mk "r17_0_1" "Release 17.0.1"] =
      Except.ok none := by
  decide

/-- C4 (code bug): in the §8 scenario (dailies 3, weeklies 2, releases 1,
recommended on, 20 tags: 5 dailies, 4 weeklies, 3 releases, 1 recommended,
plus latest/experimental tags) `extract_image_info` does return exactly 7
entries in bucket order recommended → daily → weekly → release, but the
per-bucket truncation takes the head of the *scan-order* candidate list,
not of a newest-first sorted list: with dailies and weeklies listed oldest
first, the oldest three dailies and oldest two weeklies are returned
(`clist = self._sort_images_by_name(clist)` rebinds the loop variable, and
the name sort returns `None` anyway, so the buckets are never sorted). -/
theorem C4_extract_image_info_scan_order :
    scanDisplay (ScanCfg.mk 0 3 2 1 true "lsstsqre" "sciplat-lab") []
      ["recommended",
       "d_2023_01_01", "d_2023_01_02", "d_2023_01_03", "d_2023_01_04", "d_2023_01_05",
       "w_2023_01", "w_2023_02", "w_2023_03", "w_2023_04",
       "r23_0_1", "r23_0_2", "r23_0_3",
       "latest", "latest_daily", "latest_weekly", "latest_release",
       "exp_1", "exp_2", "exp_3"] =
    Except.ok
      (["lsstsqre/sciplat-lab:recommended",
        "lsstsqre/sciplat-lab:d_2023_01_01", "lsstsqre/sciplat-lab:d_2023_01_02",
        "lsstsqre/sciplat-lab:d_2023_01_03",
        "lsstsqre/sciplat-lab:w_2023_01", "lsstsqre/sciplat-lab:w_2023_02",
        "lsstsqre/sciplat-lab:r23_0_1"],
       ["Recommended", "Daily 2023_01_01", "Daily 2023_01_02", "Daily 2023_01_03",
        "Weekly 2023_01", "Weekly 2023_02", "Release 23.0.1"]) := by
  decide

/-- C5 (code bug): with releases scanned in the order `r170rc1`, `r170`,
the display order keeps scan order (the name sort's result is discarded),
so the short release tag `r170` is displayed *after* its release-candidate
sibling `r170rc1`; and the dedicated `_sort_releases_by_name` helper —
which implements the `zzz` decoration meant to enforce the claimed order —
is never called by any caller and raises `KeyError` on exactly this mixed
input (its undecorate loop looks every name up in a map populated only for
4-character names). -/
theorem C5_short_release_after_rc :
    scanDisplay (ScanCfg.mk 0 3 2 2 true "o" "n") [] ["r170rc1", "r170"] =
      Except.ok (["o/n:r170rc1", "o/n:r170"],
        ["Release 17.0rc1", "Release 17.0"]) ∧
    sortReleasesByName
      [Img.mk "r170" "Release 17.0", Img.mk "r170rc1" "Release 17.0rc1"] =
      Except.error () := by
  decide

/-- C7 counterexample: a run with one constructed pod spec (name
`pp-o-n-t-1`) whose pod was never created: the cluster pod list is empty,
and the timeout handler issues no delete call at all — the claim demands a
delete call for every constructed name, including never-created ones. -/
theorem C7_counterexample :
    allSpecNames [("node-1", [PodSpecI.mk "o/n:t" "node-1"])] = ["pp-o-n-t-1"] ∧
    (timeoutHandler [("node-1", [PodSpecI.mk "o/n:t" "node-1"])] []).1 = [] := by
  decide

/-- C7 (amended): on expiry the timeout handler issues a delete call
exactly for those constructed pod names that are present in the
namespace's current pod list (in any phase, `selective=False`), and then
raises `RuntimeError("Timed out")`; constructed names without a live pod
receive no delete call. -/
theorem C7_timeout_handler_deletes_listed_pods
    (podSpecs : List (String × List PodSpecI))
    (podlist : List (String × String)) :
    (timeoutHandler podSpecs podlist).2 = Except.error "Timed out" ∧
    ∀ n, n ∈ (timeoutHandler podSpecs podlist).1 ↔
      (n ∈ allSpecNames podSpecs ∧ ∃ ph, (n, ph) ∈ podlist) := by
  refine ⟨rfl, fun n => ?_⟩
  unfold timeoutHandler getDeletionList
  rw [List.mem_filterMap]
  constructor
  · rintro ⟨⟨pn, ph⟩, hmem, hf⟩
    by_cases hspec : pn ∈ allSpecNames podSpecs
    · simp only [if_pos hspec] at hf
      simp at hf
      obtain rfl : pn = n := hf
      exact ⟨hspec, ph, hmem⟩
    · simp [if_neg hspec] at hf
  · rintro ⟨hspec, ph, hmem⟩
    refine ⟨(n, ph), hmem, ?_⟩
    simp [if_pos hspec]

/-- Witness for `C7_timeout_handler_deletes_listed_pods` at a concrete
run: one spec, whose pod is present and `Running`. -/
theorem C7_timeout_handler_deletes_listed_pods_witness :
    (timeoutHandler [("node-1", [PodSpecI.mk "o/n:t" "node-1"])]
      [("pp-o-n-t-1", "Running")]).2 = Except.error "Timed out" ∧
    "pp-o-n-t-1" ∈ (timeoutHandler [("node-1", [PodSpecI.mk "o/n:t" "node-1"])]
      [("pp-o-n-t-1", "Running")]).1 := by
  obtain ⟨h1, h2⟩ := C7_timeout_handler_deletes_listed_pods
    [("node-1", [PodSpecI.mk "o/n:t" "node-1"])] [("pp-o-n-t-1", "Running")]
  exact ⟨h1, (h2 "pp-o-n-t-1").mpr ⟨by decide, "Running", by decide⟩⟩

/-- C8 counterexample: a 409 (`already exists`) from
`create_namespaced_pod` and a 404 (`already gone`) from
`delete_namespaced_pod` are *not* swallowed: `start_single_pod` and
`delete_pod` have no `try`/`except`, so both errors reach the caller
instead of completing as benign no-ops. -/
theorem C8_counterexample :
    startSinglePod (fun _ => Except.error (K8sApiError.mk 409))
      (PodSpecI.mk "o/n:t" "node-1") = Except.error (K8sApiError.mk 409) ∧
    deletePod (fun _ => Except.error (K8sApiError.mk 404)) "pp-o-n-t-1" =
      Except.error (K8sApiError.mk 404) := by
  decide

/-- C8 (amended): `start_single_pod` and `delete_pod` wrap the Kubernetes
API calls with no exception handling at all: every underlying API error —
including 409 on create and 404 on delete — propagates unchanged to the
caller, and a successful call returns the created pod's name
(resp. unit). -/
theorem C8_pod_ops_propagate_all_errors
    (create : String → Except K8sApiError String)
    (del : String → Except K8sApiError Unit)
    (spec : PodSpecI) (podname : String) :
    (∀ e, create (derivePodName spec) = Except.error e →
      startSinglePod create spec = Except.error e) ∧
    (∀ v, create (derivePodName spec) = Except.ok v →
      startSinglePod create spec = Except.ok v) ∧
    (∀ e, del podname = Except.error e →
      deletePod del podname = Except.error e) ∧
    (∀ u, del podname = Except.ok u →
      deletePod del podname = Except.ok u) := by
  refine ⟨fun e he => ?_, fun v hv => ?_, fun e he => he, fun u hu => hu⟩
  · simp [startSinglePod, he, Except.bind]
  · simp [startSinglePod, hv, Except.bind]

/-- Witness for `C8_pod_ops_propagate_all_errors` with a client raising
409 on create and 404 on delete. -/
theorem C8_pod_ops_propagate_all_errors_witness :
    startSinglePod (fun _ => Except.error (K8sApiError.mk 409))
      (PodSpecI.mk "lsstsqre/sciplat-lab:w_2021_01" "node-7") =
      Except.error (K8sApiError.mk 409) ∧
    deletePod (fun _ => Except.error (K8sApiError.mk 404)) "pp-x-1" =
      Except.error (K8sApiError.mk 404) := by
  obtain ⟨h1, _, h3, _⟩ := C8_pod_ops_propagate_all_errors
    (fun _ => Except.error (K8sApiError.mk 409))
    (fun _ => Except.error (K8sApiError.mk 404))
    (PodSpecI.mk "lsstsqre/sciplat-lab:w_2021_01" "node-7") "pp-x-1"
  exact ⟨h1 _ rfl, h3 _ rfl⟩

theorem lookup_cons_eq (a k : String) (e : MEntry) (rest : NameMap) :
    List.lookup a ((k, e) :: rest) = if a = k then some e else List.lookup a rest := by
  by_cases h : a = k
  · subst h
    simp [List.lookup]
  · have hb : (a == k) = false := by simpa using h
    simp [List.lookup, hb, h]

theorem lookup_eq_of_mem_nodup :
    ∀ (nm : NameMap) (k : String) (e : MEntry),
      (nm.map Prod.fst).Nodup → (k, e) ∈ nm → nm.lookup k = some e := by
  intro nm
  induction nm with
  | nil => intro k e _ hmem; simp at hmem
  | cons a rest ih =>
    intro k e hnd hmem
    obtain ⟨ha, hndr⟩ := List.nodup_cons.mp hnd
    rcases List.mem_cons.mp hmem with heq | hmemr
    · subst heq
      rw [lookup_cons_eq, if_pos rfl]
    · rw [lookup_cons_eq]
      by_cases hk : k = a.1
      · exfalso
        exact ha (hk ▸ (List.mem_map.mpr ⟨(k, e), hmemr, rfl⟩))
      · rw [if_neg hk]
        exact ih k e hndr hmemr

/-- C6 counterexample: for the non-alias tag `w_2021_33` (present with a
hash), `resolve_tag` returns the tag *itself* — the claim's "it never
returns t itself" fails for non-alias inputs, since only
`recommended*`/`latest*` keys are skipped in the search loop. -/
theorem C6_counterexample :
    resolveTag [("w_2021_33", MEntry.mk 4 (some "h"))] "w_2021_33" =
      some "w_2021_33" := by
  decide

/-- C6 (amended): for every tag `t`, `resolve_tag(t)` returns either
`None` or a tag `k` such that `k` is not `recommended*`/`latest*`-prefixed,
`k`'s recorded manifest hash equals `t`'s recorded (present) hash, and
`k ≠ t` *when `t` is an alias tag* (for non-alias `t` it may return `t`
itself); if `t` has no recorded manifest or no hash, or no non-alias entry
shares its hash, the result is `None`. -/
theorem C6_resolve_tag_spec (nm : NameMap) (t : String)
    (hnd : (nm.map Prod.fst).Nodup) :
    (∀ k, resolveTag nm t = some k →
      isAliasTag k = false ∧
      (nm.lookup k).bind MEntry.hash = (nm.lookup t).bind MEntry.hash ∧
      ((nm.lookup t).bind MEntry.hash).isSome = true ∧
      (isAliasTag t = true → k ≠ t)) ∧
    ((nm.lookup t).bind MEntry.hash = none → resolveTag nm t = none) ∧
    (∀ h, (nm.lookup t).bind MEntry.hash = some h →
      (∀ p ∈ nm, isAliasTag p.1 = false → p.2.hash ≠ some h) →
      resolveTag nm t = none) := by
  cases hl : nm.lookup t with
  | none =>
    refine ⟨fun k hk => ?_, fun _ => ?_, fun h hh _ => ?_⟩
    · simp [resolveTag, hl] at hk
    · simp [resolveTag, hl]
    · simp [resolveTag, hl]
  | some e =>
    cases hh : e.hash with
    | none =>
      refine ⟨fun k hk => ?_, fun _ => ?_, fun h hheq _ => ?_⟩
      · simp [resolveTag, hl, hh] at hk
      · simp [resolveTag, hl, hh]
      · have hheq' : e.hash = some h := hheq
        rw [hh] at hheq'
        exact absurd hheq' (by simp)
    | some h0 =>
      refine ⟨fun k hk => ?_, fun hcontra => ?_, fun h hheq hall => ?_⟩
      · simp only [resolveTag, hl, hh] at hk
        obtain ⟨pr, hfind, hfst⟩ := Option.map_eq_some'.mp hk
        have hq := List.find?_some hfind
        have hmem := List.mem_of_find?_eq_some hfind
        simp only [Bool.and_eq_true, Bool.not_eq_true'] at hq
        obtain ⟨halias, hhash⟩ := hq
        have hhash' : pr.2.hash = some h0 := by simpa using hhash
        have hlk : nm.lookup pr.1 = some pr.2 :=
          lookup_eq_of_mem_nodup nm pr.1 pr.2 hnd (by cases pr; exact hmem)
        subst hfst
        refine ⟨halias, ?_, ?_, ?_⟩
        · rw [hlk]
          show pr.2.hash = e.hash
          rw [hhash', hh]
        · show e.hash.isSome = true
          rw [hh]
          rfl
        · intro ht hkt
          rw [hkt] at halias
          rw [halias] at ht
          exact Bool.false_ne_true ht
      · have hc : e.hash = none := hcontra
        rw [hh] at hc
        exact absurd hc (by simp)
      · have hheq' : e.hash = some h := hheq
        rw [hh] at hheq'
        obtain rfl : h0 = h := by simpa using hheq'
        have hnone : nm.find? (fun p => !isAliasTag p.1 && p.2.hash == some h0) = none := by
          rw [List.find?_eq_none]
          intro p hp
          by_cases hal : isAliasTag p.1 = true
          · simp [hal]
          · have hne := hall p hp (by simpa using hal)
            simp only [Bool.and_eq_true, Bool.not_eq_true']
            rintro ⟨-, hbeq⟩
            exact hne (by simpa using hbeq)
        simp [resolveTag, hl, hh, hnone]

/-- Witness for `C6_resolve_tag_spec`: resolving the alias `recommended`
against a map where `w_2021_33` shares its hash. -/
theorem C6_resolve_tag_spec_witness :
    isAliasTag "w_2021_33" = false ∧
    (List.lookup "w_2021_33"
        [("recommended", MEntry.mk 5 (some "h")), ("w_2021_33", MEntry.mk 4 (some "h"))]).bind
        MEntry.hash =
      (List.lookup "recommended"
        [("recommended", MEntry.mk 5 (some "h")), ("w_2021_33", MEntry.mk 4 (some "h"))]).bind
        MEntry.hash ∧
    "w_2021_33" ≠ "recommended" := by
  obtain ⟨c1, c2, _, c4⟩ :=
    (C6_resolve_tag_spec
      [("recommended", MEntry.mk 5 (some "h")), ("w_2021_33", MEntry.mk 4 (some "h"))]
      "recommended" (by decide)).1 "w_2021_33" (by decide)
  exact ⟨c1, c2, c4 (by decide)⟩

theorem lookup_append_single (nm : NameMap) (a tag : String) (e : MEntry) :
    (nm ++ [(tag, e)]).lookup a =
      (match nm.lookup a with
       | some v => some v
       | none => if a = tag then some e else none) := by
  induction nm with
  | nil =>
    simp only [List.nil_append, List.lookup_nil]
    rw [lookup_cons_eq]
    rfl
  | cons b rest ih =>
    cases b with
    | mk k v =>
      rw [List.cons_append, lookup_cons_eq, lookup_cons_eq]
      by_cases hk : a = k
      · simp [hk]
      · simp only [if_neg hk]
        exact ih

theorem trustedB_append_hashless (nm : NameMap) (tag : String) (ts : Nat)
    (p : String × Nat) :
    trustedB (nm ++ [(tag, MEntry.mk ts none)]) p = trustedB nm p := by
  unfold trustedB
  rw [lookup_append_single]
  cases hl : nm.lookup p.1 with
  | some v => rfl
  | none =>
    by_cases hp : p.1 = tag
    · simp [hp]
    · simp [hp]

theorem staleNames_append_hashless (nm : NameMap) (tag : String) (ts : Nat)
    (rest : List (String × Nat)) :
    staleNames (nm ++ [(tag, MEntry.mk ts none)]) rest = staleNames nm rest := by
  unfold staleNames
  congr 1
  apply List.filter_congr
  intro p _
  rw [trustedB_append_hashless]

theorem mnmPhase1_checkNames :
    ∀ (results : List (String × Nat)) (nm : NameMap),
      (mnmPhase1 results nm).2.2 = staleNames nm results := by
  intro results
  induction results with
  | nil => intro nm; simp [mnmPhase1, staleNames]
  | cons hd rest ih =>
    intro nm
    cases hd with
    | mk tag ts =>
      cases hl : nm.lookup tag with
      | some e0 =>
        by_cases hcond : ts ≤ e0.updated ∧ e0.hash.isSome = true
        · have htr : trustedB nm (tag, ts) = true := by
            unfold trustedB
            rw [hl]
            simp [hcond.1, hcond.2]
          simp only [mnmPhase1, hl, if_pos hcond]
          rw [ih]
          simp [staleNames, List.filter_cons, htr]
        · have htr : trustedB nm (tag, ts) = false := by
            unfold trustedB
            rw [hl]
            by_cases h1 : ts ≤ e0.updated
            · have h2 : e0.hash.isSome = false := by
                cases hs : e0.hash.isSome
                · rfl
                · exact absurd ⟨h1, hs⟩ hcond
              simp [h2]
            · simp [h1]
          simp only [mnmPhase1, hl, if_neg hcond]
          rw [ih]
          simp [staleNames, List.filter_cons, htr]
      | none =>
        have htr : trustedB nm (tag, ts) = false := by
          unfold trustedB
          rw [hl]
        have hcond : ¬(ts ≤ (MEntry.mk ts none).updated ∧
            (MEntry.mk ts none).hash.isSome = true) := by
          rintro ⟨-, hs⟩
          simp at hs
        simp only [mnmPhase1, hl, if_neg hcond]
        rw [ih, staleNames_append_hashless]
        simp [staleNames, List.filter_cons, htr]

theorem mnmPhase1_all_trusted :
    ∀ (results : List (String × Nat)) (nm : NameMap),
      (∀ p ∈ results, trustedB nm p = true) →
      mnmPhase1 results nm =
        (nm, results.map (fun p => (p.1, (nm.lookup p.1).bind MEntry.hash)), []) := by
  intro results
  induction results with
  | nil => intro nm _; simp [mnmPhase1]
  | cons hd rest ih =>
    intro nm h
    cases hd with
    | mk tag ts =>
      have htr : trustedB nm (tag, ts) = true := h (tag, ts) (List.mem_cons_self _ _)
      unfold trustedB at htr
      cases hl : nm.lookup tag with
      | none => rw [hl] at htr; exact absurd htr (by simp)
      | some e0 =>
        rw [hl] at htr
        simp only [Bool.and_eq_true, decide_eq_true_eq] at htr
        simp only [mnmPhase1, hl, if_pos htr]
        rw [ih nm (fun p hp => h p (List.mem_cons_of_mem _ hp))]
        simp [hl]

/-- C2 counterexample: one tag whose cached `updated` (3) is older than
the registry's `last_updated` (5) — the claim demands a manifest fetch for
it — scanned against a registry that answers the auth probe without a
bearer challenge (`authtok = none`): the per-tag fetch loop, nested inside
`if authtok:`, never runs, so no manifest fetch is attempted at all. -/
theorem C2_counterexample :
    staleNames [("w_2021_05", MEntry.mk 3 (some "h"))] [("w_2021_05", 5)] =
      ["w_2021_05"] ∧
    (mapNamesToManifests [("w_2021_05", 5)] [("w_2021_05", MEntry.mk 3 (some "h"))]
      none (fun _ => "sha256:d")).fetched = [] ∧
    (mapNamesToManifests [("w_2021_05", 5)] [("w_2021_05", MEntry.mk 3 (some "h"))]
      none (fun _ => "sha256:d")).probe = true := by
  decide

/-- C2 (amended): if a second `scan()` observes, for every tag, a registry
`last_updated` not newer than the cached `updated` with a cached hash
present, the manifest-fetch phase performs zero manifest HTTP requests
(not even the auth probe) and every tag's digest is the cached digest from
the first run; conversely, per-tag manifest fetches are attempted exactly
for the tags with a missing or stale cached hash *provided* the auth probe
yields a bearer token — with no token, no per-tag fetch is attempted. -/
theorem C2_manifest_cache_reuse (results : List (String × Nat)) (nm : NameMap)
    (authtok : Option String) (digest : String → String) :
    ((∀ p ∈ results, trustedB nm p = true) →
      (mapNamesToManifests results nm authtok digest).probe = false ∧
      (mapNamesToManifests results nm authtok digest).fetched = [] ∧
      (mapNamesToManifests results nm authtok digest).resHash =
        results.map (fun p => (p.1, (nm.lookup p.1).bind MEntry.hash))) ∧
    (mapNamesToManifests results nm authtok digest).fetched =
      (if staleNames nm results = [] then []
       else
         match authtok with
         | none => []
         | some _ => staleNames nm results) := by
  constructor
  · intro h
    have h1 := mnmPhase1_all_trusted results nm h
    simp [mapNamesToManifests, h1]
  · have hc := mnmPhase1_checkNames results nm
    cases hs : staleNames nm results with
    | nil =>
      rw [hs] at hc
      simp [mapNamesToManifests, hc]
    | cons a l =>
      rw [hs] at hc
      cases authtok with
      | none => simp [mapNamesToManifests, hc]
      | some tok => simp [mapNamesToManifests, hc]

/-- Witness for `C2_manifest_cache_reuse`: a fully cached second run
(cached `updated` 9 ≥ registry 5, hash present): zero fetches, no probe,
digest is the cached one. -/
theorem C2_manifest_cache_reuse_witness :
    (mapNamesToManifests [("w_2021_05", 5)] [("w_2021_05", MEntry.mk 9 (some "h"))]
      none (fun _ => "sha256:d")).probe = false ∧
    (mapNamesToManifests [("w_2021_05", 5)] [("w_2021_05", MEntry.mk 9 (some "h"))]
      none (fun _ => "sha256:d")).fetched = [] ∧
    (mapNamesToManifests [("w_2021_05", 5)] [("w_2021_05", MEntry.mk 9 (some "h"))]
      none (fun _ => "sha256:d")).resHash = [("w_2021_05", some "h")] := by
  obtain ⟨hp, hf, hr⟩ :=
    (C2_manifest_cache_reuse [("w_2021_05", 5)]
      [("w_2021_05", MEntry.mk 9 (some "h"))] none (fun _ => "sha256:d")).1
      (by decide)
  refine ⟨hp, hf, ?_⟩
  rw [hr]
  decide

theorem scanPages_fail_spec (url : String) (o : Nat → FetchOutcome) :
    ∀ (k fuel page : Nat) (prev : Option String) (acc : List (String × Nat))
      (tags : Nat → List (String × Nat)) (raws : Nat → String),
      k < fuel →
      (∀ i, i < k → o (page + i) = FetchOutcome.page (tags i) true (raws i)) →
      ((∃ e, o (page + k) = FetchOutcome.fetchFail e) ∨
        (∃ raw, o (page + k) = FetchOutcome.badJson raw)) →
      ∃ msg, scanPages url o fuel page prev acc = some (Except.error msg) ∧
        StrContains msg url ∧
        (∀ raw, o (page + k) = FetchOutcome.badJson raw → StrContains msg raw) ∧
        (∀ e, o (page + k) = FetchOutcome.fetchFail e →
          (0 < k → StrContains msg (raws (k - 1))) ∧
          (k = 0 → ∀ b, prev = some b → StrContains msg b)) := by
  intro k
  induction k with
  | zero =>
    intro fuel page prev acc tags raws hfuel _ hfail
    obtain ⟨f, rfl⟩ : ∃ f, fuel = f + 1 := ⟨fuel - 1, by omega⟩
    rcases hfail with ⟨e, he⟩ | ⟨raw, hraw⟩
    · rw [Nat.add_zero] at he
      refine ⟨"Failure retrieving " ++ url ++ ": " ++ e ++ bodySuffix prev,
        ?_, ?_, ?_, ?_⟩
      · simp [scanPages, he]
      · exact ⟨"Failure retrieving ", ": " ++ e ++ bodySuffix prev,
          by simp [String.append_assoc]⟩
      · intro raw h2
        rw [Nat.add_zero, he] at h2
        exact absurd h2 (by simp)
      · intro e' _
        refine ⟨fun h0 => absurd h0 (by omega), fun _ b hb => ?_⟩
        subst hb
        exact ⟨"Failure retrieving " ++ url ++ ": " ++ e ++ " [ data: ", " ]",
          by simp [bodySuffix, String.append_assoc]⟩
    · rw [Nat.add_zero] at hraw
      refine ⟨"Could not decode '" ++ url ++ "' -> '" ++ raw ++ "' as JSON",
        ?_, ?_, ?_, ?_⟩
      · simp [scanPages, hraw]
      · exact ⟨"Could not decode '", "' -> '" ++ raw ++ "' as JSON",
          by simp [String.append_assoc]⟩
      · intro raw' h2
        rw [Nat.add_zero, hraw] at h2
        obtain rfl : raw = raw' := by injection h2
        exact ⟨"Could not decode '" ++ url ++ "' -> '", "' as JSON",
          by simp [String.append_assoc]⟩
      · intro e he
        rw [Nat.add_zero, hraw] at he
        exact absurd he (by simp)
  | succ k ih =>
    intro fuel page prev acc tags raws hfuel hgood hfail
    obtain ⟨f, rfl⟩ : ∃ f, fuel = f + 1 := ⟨fuel - 1, by omega⟩
    have h0 : o page = FetchOutcome.page (tags 0) true (raws 0) := by
      have h := hgood 0 (by omega)
      simpa using h
    have hrec : scanPages url o (f + 1) page prev acc =
        scanPages url o f (page + 1) (some (raws 0)) (acc ++ tags 0) := by
      simp [scanPages, h0]
    have hgood' : ∀ i, i < k →
        o ((page + 1) + i) = FetchOutcome.page (tags (i + 1)) true (raws (i + 1)) := by
      intro i hi
      have h := hgood (i + 1) (by omega)
      have harith : page + (i + 1) = (page + 1) + i := by omega
      rw [harith] at h
      exact h
    have harith : page + (k + 1) = (page + 1) + k := by omega
    have hfail' : (∃ e, o ((page + 1) + k) = FetchOutcome.fetchFail e) ∨
        (∃ raw, o ((page + 1) + k) = FetchOutcome.badJson raw) := by
      rw [harith] at hfail
      exact hfail
    obtain ⟨msg, hmsg, hurl, hbad, hfet⟩ :=
      ih f (page + 1) (some (raws 0)) (acc ++ tags 0)
        (fun i => tags (i + 1)) (fun i => raws (i + 1)) (by omega) hgood' hfail'
    refine ⟨msg, by rw [hrec]; exact hmsg, hurl, ?_, ?_⟩
    · intro raw h2
      rw [harith] at h2
      exact hbad raw h2
    · intro e he
      rw [harith] at he
      obtain ⟨h1, h2⟩ := hfet e he
      refine ⟨fun _ => ?_, fun hcon => absurd hcon (by omega)⟩
      by_cases hk : 0 < k
      · have h3 := h1 hk
        have harr : k - 1 + 1 = k := by omega
        simpa [harr] using h3
      · have hk0 : k = 0 := by omega
        subst hk0
        simpa using h2 rfl (raws 0) rfl

/-- C9: whenever any tag-listing page fetch or JSON decode fails within
the page budget, `scan()` raises a `ValueError` whose message contains the
failing URL — and the received response body: the offending text for a
decode failure, the last body received before the failure for a fetch
failure — and the scanner's previously computed state (`data`,
`_results`, `_all_tags`, `_results_map`, `_name_to_manifest` and the
hash cache) is returned exactly as it was: no partial page results are
committed, every `self` assignment in `scan()` sitting after the loop. -/
theorem C9_scan_failure_leaves_state_unchanged
    (cfg : ScanCfg) (url : String) (s : ScanState) (o : Nat → FetchOutcome)
    (authtok : Option String) (digest : String → String)
    (k fuel : Nat) (tags : Nat → List (String × Nat)) (raws : Nat → String)
    (hfuel : k < fuel)
    (hgood : ∀ i, i < k → o (1 + i) = FetchOutcome.page (tags i) true (raws i))
    (hfail : (∃ e, o (1 + k) = FetchOutcome.fetchFail e) ∨
      (∃ raw, o (1 + k) = FetchOutcome.badJson raw)) :
    ∃ msg,
      scanTotal cfg url s o authtok digest fuel =
        some (s, some (ScanErr.retrieval msg)) ∧
      StrContains msg url ∧
      (∀ raw, o (1 + k) = FetchOutcome.badJson raw → StrContains msg raw) ∧
      (∀ e, o (1 + k) = FetchOutcome.fetchFail e → 0 < k →
        StrContains msg (raws (k - 1))) := by
  obtain ⟨msg, hmsg, hurl, hbad, hfet⟩ :=
    scanPages_fail_spec url o k fuel 1 none [] tags raws hfuel hgood hfail
  refine ⟨msg, ?_, hurl, hbad, fun e he hk => (hfet e he).1 hk⟩
  simp [scanTotal, hmsg]

/-- Witness for `C9_scan_failure_leaves_state_unchanged`: page 1 succeeds
with body `PAGE1` and a `next` cursor, page 2's fetch raises. -/
theorem C9_scan_failure_leaves_state_unchanged_witness :
    ∃ msg,
      scanTotal (ScanCfg.mk 0 3 2 1 true "o" "n") "https://hub/v2/o/n/tags/"
        (ScanState.mk none none [] [] [] [])
        (fun p => if p = 1 then FetchOutcome.page [("a", 3)] true "PAGE1"
          else FetchOutcome.fetchFail "boom")
        none (fun _ => "sha256:d") 5 =
        some (ScanState.mk none none [] [] [] [], some (ScanErr.retrieval msg)) ∧
      StrContains msg "https://hub/v2/o/n/tags/" ∧
      StrContains msg "PAGE1" := by
  obtain ⟨msg, hmsg, hurl, _, hfet⟩ :=
    C9_scan_failure_leaves_state_unchanged (ScanCfg.mk 0 3 2 1 true "o" "n")
      "https://hub/v2/o/n/tags/" (ScanState.mk none none [] [] [] [])
      (fun p => if p = 1 then FetchOutcome.page [("a", 3)] true "PAGE1"
        else FetchOutcome.fetchFail "boom")
      none (fun _ => "sha256:d") 1 5 (fun _ => [("a", 3)]) (fun _ => "PAGE1")
      (by omega)
      (by
        intro i hi
        have hi0 : i = 0 := by omega
        subst hi0
        decide)
      (Or.inl ⟨"boom", by decide⟩)
  exact ⟨msg, hmsg, hurl, hfet "boom" (by decide) (by omega)⟩

theorem mapM_except_ok {α β ε : Type} (f : α → Except ε β) (g : α → β) :
    ∀ (l : List α), (∀ a ∈ l, f a = Except.ok (g a)) →
      l.mapM f = Except.ok (l.map g) := by
  intro l
  induction l with
  | nil => intro _; rw [List.mapM_nil]; rfl
  | cons a l ih =>
    intro h
    rw [List.mapM_cons, h a (List.mem_cons_self _ _),
      ih (fun x hx => h x (List.mem_cons_of_mem _ hx))]
    rfl

theorem describeTag_eq_ok {nm : NameMap} {t : String}
    (h : exOk (describeTag nm t) = true) :
    describeTag nm t = Except.ok (descD nm t) := by
  unfold descD
  cases hd : describeTag nm t with
  | ok d => rfl
  | error e => rw [hd] at h; simp [exOk] at h

theorem parseNewStyleKey_eq_ok {t : String}
    (h : exOk (parseNewStyleKey t) = true) :
    parseNewStyleKey t = Except.ok (parseD t) := by
  unfold parseD
  cases hd : parseNewStyleKey t with
  | ok d => rfl
  | error e => rw [hd] at h; simp [exOk] at h

theorem except_bind_ok {ε α β : Type} (a : α) (f : α → Except ε β) :
    ((Except.ok a : Except ε α) >>= f) = f a := rfl

theorem semverKeyOk_exOk {t : String} (h : semverKeyOk t = true) :
    exOk (parseNewStyleKey t) = true := by
  cases hp : parseNewStyleKey t with
  | error e =>
    unfold semverKeyOk at h
    rw [hp] at h
    simp at h
  | ok k => simp [exOk]

theorem semverKeyOk_conforming {t : String} (h : semverKeyOk t = true) :
    (parseSemverStr (formatVersion (parseD t))).isNone = false := by
  cases hp : parseNewStyleKey t with
  | error e =>
    unfold semverKeyOk at h
    rw [hp] at h
    simp at h
  | ok k =>
    unfold semverKeyOk at h
    rw [hp] at h
    have h' : (parseSemverStr (formatVersion k)).isSome = true := h
    have hpd : parseD t = k := by unfold parseD; rw [hp]
    rw [hpd]
    cases hps : parseSemverStr (formatVersion k) with
    | none => rw [hps] at h'; simp at h'
    | some v => rfl

theorem sortImagesByName_ok (clist : List Img)
    (h : ∀ c ∈ clist, newStyleName c.name = true → semverKeyOk c.name = true) :
    sortImagesByName clist = Except.ok none := by
  have hmapM : (clist.filter (fun c => newStyleName c.name)).mapM
      (fun c => (parseNewStyleKey c.name).map (fun k => (c, formatVersion k))) =
      Except.ok ((clist.filter (fun c => newStyleName c.name)).map
        (fun c => (c, formatVersion (parseD c.name)))) := by
    apply mapM_except_ok
    intro c hc
    obtain ⟨hcl, hns⟩ := List.mem_filter.mp hc
    rw [parseNewStyleKey_eq_ok (semverKeyOk_exOk (h c hcl hns))]
    rfl
  have hblocked : semverSortBlocked
      (((clist.filter (fun c => newStyleName c.name)).map
        (fun c => (c, formatVersion (parseD c.name)))).map Prod.snd) = false := by
    have hany : (((clist.filter (fun c => newStyleName c.name)).map
        (fun c => (c, formatVersion (parseD c.name)))).map Prod.snd).any
        (fun s => (parseSemverStr s).isNone) = false := by
      rw [List.any_eq_false]
      intro s hs
      rw [List.map_map] at hs
      obtain ⟨c, hc, rfl⟩ := List.mem_map.mp hs
      obtain ⟨hcl, hns⟩ := List.mem_filter.mp hc
      show ¬ ((parseSemverStr (formatVersion (parseD c.name))).isNone = true)
      rw [semverKeyOk_conforming (h c hcl hns)]
      simp
    unfold semverSortBlocked
    rw [hany, Bool.and_false]
  simp only [sortImagesByName, sortImagesCore]
  rw [hmapM]
  simp only [except_bind_ok]
  rw [hblocked]
  rfl

theorem foldl_addToBucket :
    ∀ (l : List Img) (bs : Buckets),
      l.foldl addToBucket bs = Buckets.mk
        (bs.cCand ++ l.filter (fun i => decide (classify i.name = Bucket.recommendedB)))
        (bs.rCand ++ l.filter (fun i => decide (classify i.name = Bucket.release)))
        (bs.wCand ++ l.filter (fun i => decide (classify i.name = Bucket.weekly)))
        (bs.dCand ++ l.filter (fun i => decide (classify i.name = Bucket.daily)))
        (bs.eCand ++ l.filter (fun i => decide (classify i.name = Bucket.experimental)))
        (bs.lCand ++ l.filter (fun i => decide (classify i.name = Bucket.latestB)))
        (bs.oCand ++ (l.filter (fun i => decide (classify i.name = Bucket.other))).map
          Img.name) := by
  intro l
  induction l with
  | nil => intro bs; simp
  | cons a l ih =>
    intro bs
    rw [List.foldl_cons, ih]
    cases hc : classify a.name <;>
      simp [addToBucket, hc, List.filter_cons, List.append_assoc]

theorem pyDedupImgsAux_map (nm : NameMap) :
    ∀ (l : List String) (seen : List String),
      pyDedupImgsAux seen (l.map (mkImg nm)) = (pyDedupAux seen l).map (mkImg nm) := by
  intro l
  induction l with
  | nil => intro seen; rfl
  | cons a l ih =>
    intro seen
    show pyDedupImgsAux seen (mkImg nm a :: l.map (mkImg nm)) = _
    by_cases ha : a ∈ seen
    · have : (mkImg nm a).name = a := rfl
      simp only [pyDedupImgsAux, this, if_pos ha, pyDedupAux, ih]
    · have : (mkImg nm a).name = a := rfl
      simp only [pyDedupImgsAux, this, if_neg ha, pyDedupAux, ih]
      rfl

theorem count_filter_nodup (l : List String) (hl : l.Nodup) (p : String → Bool)
    (t : String) :
    (l.filter p).count t = if p t = true ∧ t ∈ l then 1 else 0 := by
  by_cases hmem : t ∈ l.filter p
  · obtain ⟨hml, hpt⟩ := List.mem_filter.mp hmem
    rw [List.count_eq_one_of_mem (hl.filter p) hmem, if_pos ⟨hpt, hml⟩]
  · rw [List.count_eq_zero_of_not_mem hmem, if_neg]
    rintro ⟨hpt, hml⟩
    exact hmem (List.mem_filter.mpr ⟨hml, hpt⟩)

/-- C3 counterexample: classification *can* raise on adversarial tags —
`_describe_tag("w_2021")` raises `IndexError` (too few underscore
components), the name sort raises `ValueError` on `w_2021_ab` (`int` on a
non-numeric minor component) and on the pair `w_1_2_3_05`/`w_2021_10`
(`semver.compare` re-parses the formatted key `1.2.3-05`, whose
leading-zero prerelease identifier does not conform) — and the claimed
grammar is off: the legacy experimental tag `e1692` is unclassified, not
experimental. -/
theorem C3_counterexample :
    reduceResultsE true [] ["w_2021"] = Except.error () ∧
    reduceResultsE true [] ["w_2021_ab"] = Except.error () ∧
    reduceResultsE true [] ["w_1_2_3_05", "w_2021_10"] = Except.error () ∧
    classify "e1692" = Bucket.other := by
  decide

/-- C3 (amended): for every result set whose tags all describe without an
`IndexError` (malformed tags such as `w_2021` or the empty tag raise
there) and whose classified new-style tags survive the name sort — `int()`
on a non-numeric component raises `ValueError`, as does `semver.compare`
when a formatted key does not re-parse and at least two keys are compared
— `_reduce_results` completes, assigning each tag to exactly one candidate
list, the one selected by the `if/elif` prefix-precedence chain (`r*`
minus `recommended*`, then `w*`, `d*`, `exp*`, `latest*`, `recommended*`,
otherwise `o_candidates` — legacy `e*` tags included).  Tags in
`o_candidates` never raise and never reach the sort pass
(`imgorder.extend(o_candidates)` copied it while empty); they are silently
dropped from the truncated `data` rather than surviving as a displayed
"unclassified" bucket. -/
theorem C3_classification_exactly_one_bucket (flag : Bool) (nm : NameMap)
    (results : List String)
    (h1 : ∀ t ∈ results, exOk (describeTag nm t) = true)
    (h3 : ∀ t ∈ results, newStyleName t = true → classify t ≠ Bucket.other →
      semverKeyOk t = true) :
    ∃ bs, reduceResultsE flag nm results = Except.ok bs ∧
      ∀ t b, (bucketNames bs b).count t =
        (if classify t = b ∧ t ∈ results then 1 else 0) := by
  have hmapM : results.mapM (fun t => (describeTag nm t).map (Img.mk t)) =
      Except.ok (results.map (mkImg nm)) := by
    apply mapM_except_ok
    intro t ht
    rw [describeTag_eq_ok (h1 t ht)]
    rfl
  have hdedup : pyDedupImgs (results.map (mkImg nm)) =
      (pyDedup results).map (mkImg nm) := by
    unfold pyDedupImgs pyDedup
    exact pyDedupImgsAux_map nm results []
  -- membership in the deduplicated record list
  have hmemL : ∀ c ∈ (pyDedup results).map (mkImg nm), c.name ∈ results := by
    intro c hc
    obtain ⟨t, htmem, rfl⟩ := List.mem_map.mp hc
    exact mem_pyDedup.mp htmem
  set L := (pyDedup results).map (mkImg nm) with hL
  have hparts := foldl_addToBucket L emptyBuckets
  -- each sorted candidate list is a filter of L on a classified bucket, so
  -- its new-style members have conforming semver keys
  have hsortable : ∀ (b : Bucket), b ≠ Bucket.other →
      ∀ c ∈ L.filter (fun i => decide (classify i.name = b)),
        newStyleName c.name = true → semverKeyOk c.name = true := by
    intro b hb c hc hns
    obtain ⟨hcl, hcb⟩ := List.mem_filter.mp hc
    have hcb' : classify c.name = b := by simpa using hcb
    exact h3 c.name (hmemL c hcl) hns (hcb' ▸ hb)
  have hbs : partitionBuckets (pyDedupImgs (results.map (mkImg nm))) =
      Buckets.mk
        (L.filter (fun i => decide (classify i.name = Bucket.recommendedB)))
        (L.filter (fun i => decide (classify i.name = Bucket.release)))
        (L.filter (fun i => decide (classify i.name = Bucket.weekly)))
        (L.filter (fun i => decide (classify i.name = Bucket.daily)))
        (L.filter (fun i => decide (classify i.name = Bucket.experimental)))
        (L.filter (fun i => decide (classify i.name = Bucket.latestB)))
        ((L.filter (fun i => decide (classify i.name = Bucket.other))).map
          Img.name) := by
    rw [hdedup]
    unfold partitionBuckets
    rw [hparts]
    simp [emptyBuckets]
  refine ⟨Buckets.mk
      (L.filter (fun i => decide (classify i.name = Bucket.recommendedB)))
      (L.filter (fun i => decide (classify i.name = Bucket.release)))
      (L.filter (fun i => decide (classify i.name = Bucket.weekly)))
      (L.filter (fun i => decide (classify i.name = Bucket.daily)))
      (L.filter (fun i => decide (classify i.name = Bucket.experimental)))
      (L.filter (fun i => decide (classify i.name = Bucket.latestB)))
      ((L.filter (fun i => decide (classify i.name = Bucket.other))).map
        Img.name), ?_, ?_⟩
  · simp only [reduceResultsE]
    rw [hmapM]
    simp only [except_bind_ok, hbs]
    rw [sortImagesByName_ok _ (hsortable Bucket.latestB (by decide))]
    simp only [except_bind_ok]
    cases flag
    · rw [if_neg (by simp : ¬ (false = true))]
      rw [show (pure none : Except Unit (Option (List Img))) = Except.ok none from rfl]
      simp only [except_bind_ok]
      rw [sortImagesByName_ok _ (hsortable Bucket.experimental (by decide))]
      simp only [except_bind_ok]
      rw [sortImagesByName_ok _ (hsortable Bucket.daily (by decide))]
      simp only [except_bind_ok]
      rw [sortImagesByName_ok _ (hsortable Bucket.weekly (by decide))]
      simp only [except_bind_ok]
      rw [sortImagesByName_ok _ (hsortable Bucket.release (by decide))]
      simp only [except_bind_ok]
      rfl
    · rw [if_pos rfl]
      rw [sortImagesByName_ok _ (hsortable Bucket.recommendedB (by decide))]
      simp only [except_bind_ok]
      rw [sortImagesByName_ok _ (hsortable Bucket.experimental (by decide))]
      simp only [except_bind_ok]
      rw [sortImagesByName_ok _ (hsortable Bucket.daily (by decide))]
      simp only [except_bind_ok]
      rw [sortImagesByName_ok _ (hsortable Bucket.weekly (by decide))]
      simp only [except_bind_ok]
      rw [sortImagesByName_ok _ (hsortable Bucket.release (by decide))]
      simp only [except_bind_ok]
      rfl
  · intro t b
    have hnames : ∀ (b' : Bucket),
        (L.filter (fun i => decide (classify i.name = b'))).map Img.name =
          (pyDedup results).filter (fun u => decide (classify u = b')) := by
      intro b'
      rw [hL, List.filter_map, List.map_map]
      rw [show ((fun i => decide (classify i.name = b')) ∘ mkImg nm) =
        (fun u => decide (classify u = b')) from rfl]
      rw [show (Img.name ∘ mkImg nm) = (id : String → String) from rfl, List.map_id]
    have hcount : ∀ (b' : Bucket),
        ((pyDedup results).filter (fun u => decide (classify u = b'))).count t =
          (if classify t = b' ∧ t ∈ results then 1 else 0) := by
      intro b'
      rw [count_filter_nodup _ (nodup_pyDedup results)]
      by_cases hc : classify t = b' ∧ t ∈ results
      · rw [if_pos ⟨by simpa using hc.1, mem_pyDedup.mpr hc.2⟩, if_pos hc]
      · rw [if_neg, if_neg hc]
        rintro ⟨hd, hm⟩
        exact hc ⟨by simpa using hd, mem_pyDedup.mp hm⟩
    cases b <;>
      simp only [bucketNames] <;>
      rw [hnames, hcount]

/-- Witness for `C3_classification_exactly_one_bucket`: eight well-formed
tags, one per classified bucket plus two unclassified ones (an unmatched
name and a legacy `e*` tag), which complete without raising and land in
`o_candidates`. -/
theorem C3_classification_exactly_one_bucket_witness :
    ∃ bs, reduceResultsE true []
        ["r17_0_1", "w_2022_40", "d_2023_01_01", "exp_x", "latest",
          "recommended", "foo", "e1692"] =
        Except.ok bs ∧
      ∀ t b, (bucketNames bs b).count t =
        (if classify t = b ∧
            t ∈ ["r17_0_1", "w_2022_40", "d_2023_01_01", "exp_x", "latest",
              "recommended", "foo", "e1692"] then 1 else 0) :=
  C3_classification_exactly_one_bucket true []
    ["r17_0_1", "w_2022_40", "d_2023_01_01", "exp_x", "latest",
      "recommended", "foo", "e1692"]
    (by decide) (by decide)

end JHU
